import Mathlib

/-!
tcp_line: a shallow embedding of the "line" TCP congestion controller.

The development follows `src/tcp_line.c`.  The controller state is the record
`linetcp`; every callback of the `tcp_congestion_ops` table is a function on it.
Machine integers are natural numbers (unsigned) or integers (signed) with the
wrap-around written out; a division whose divisor is zero has no result
(`none`).  What the kernel supplies (the clock tick rate, `msecs_to_jiffies`,
the generic slow-start and additive-increase helpers, the congestion-state
numbering) is a parameter, collected in the record `Kernel`.
-/

namespace TcpLine

/-! ## Machine arithmetic -/

/-- Value of an integer after conversion to `u32`. -/
def toU32 (i : Int) : Nat := (i % 4294967296).toNat

/-- Value of an integer after conversion to `u64`. -/
def toU64 (i : Int) : Nat := (i % 18446744073709551616).toNat

/-- Value of an integer after conversion to `s32` (two's complement). -/
def toS32 (i : Int) : Int := (i + 2147483648) % 4294967296 - 2147483648

/-- Scale factor of the beta calculation (`#define BICTCP_BETA_SCALE 1024`). -/
def BICTCP_BETA_SCALE : Nat := 1024

/-- Microseconds per millisecond (`USEC_PER_MSEC`, the kernel's `1000L`). -/
def USEC_PER_MSEC : Int := 1000

/-! ## Module parameters -/

/-- The four `module_param` integers of the module; each is a C `int`. -/
structure Tunables where
  beta : Int
  alpha : Int
  gamma : Int
  initial_ssthresh : Int
deriving DecidableEq, Repr

/-- The values the module is loaded with when no parameter is given. -/
def defaultTunables : Tunables :=
  { beta := 717, alpha := 2, gamma := 2, initial_ssthresh := 0 }

/-! ## State records -/

/-- The private congestion-control state, `struct linetcp` (five `u32`). -/
structure linetcp where
  cnt : Nat
  last_max_cwnd : Nat
  K : Nat
  delay_min : Nat
  epoch_start : Nat
deriving DecidableEq, Repr

/-- The fields of the kernel's `struct tcp_sock` that the module or the generic
helpers it calls read or write. -/
structure tcp_sock where
  snd_cwnd : Nat
  snd_ssthresh : Nat
  snd_cwnd_cnt : Nat
  snd_cwnd_clamp : Nat
  max_packets_out : Nat
  is_cwnd_limited : Bool
deriving DecidableEq, Repr

/-- The kernel's `struct ack_sample`; `rtt_us` is an `s32`. -/
structure ack_sample where
  pkts_acked : Nat
  rtt_us : Int
  in_flight : Nat
deriving DecidableEq, Repr

/-- What the surrounding kernel supplies to the module.  None of it is defined
in this repository, so every result below holds for an arbitrary value of this
record. -/
structure Kernel where
  HZ : Nat
  TCP_CA_Loss : Nat
  msecs_to_jiffies : Nat → Nat
  tcp_is_cwnd_limited : tcp_sock → Bool
  tcp_in_slow_start : tcp_sock → Bool
  tcp_slow_start : tcp_sock → Nat → tcp_sock × Nat
  tcp_cong_avoid_ai : tcp_sock → Nat → Nat → tcp_sock

/-! ## The callbacks -/

/-- Embedding of `linetcp_reset`: all five fields are set to zero. -/
def linetcp_reset (_ca : linetcp) : linetcp :=
  { cnt := 0, last_max_cwnd := 0, K := 0, delay_min := 0, epoch_start := 0 }

/-- Embedding of `linetcp_init`: reset, then install `initial_ssthresh` as the
socket's `snd_ssthresh` when the parameter is non-zero. -/
def linetcp_init (cfg : Tunables) (ca : linetcp) (tp : tcp_sock) : linetcp × tcp_sock :=
  (linetcp_reset ca,
   if cfg.initial_ssthresh ≠ 0 then { tp with snd_ssthresh := toU32 cfg.initial_ssthresh }
   else tp)

/-- First statement of `linetcp_update`: when no epoch is open, record the clock
and set `K = last_max_cwnd / alpha`, an unsigned 32-bit division.  (The case of
a zero divisor is handled in `linetcp_update`.) -/
def epoch_open (cfg : Tunables) (tcp_jiffies32 : Nat) (ca : linetcp) : linetcp :=
  if ca.epoch_start = 0 then
    { ca with epoch_start := tcp_jiffies32, K := ca.last_max_cwnd / toU32 cfg.alpha }
  else ca

/-- The local `t` of `linetcp_update`: `msecs_to_jiffies(ca->delay_min >> 3)`
held in a `u64`. -/
def update_t (k : Kernel) (ca : linetcp) : Nat :=
  k.msecs_to_jiffies (ca.delay_min / 8) % 18446744073709551616

/-- The local `offs` of `linetcp_update` before the zero fallback: `alpha * t`
when `t < K` and `gamma * t` otherwise, both 64-bit unsigned products. -/
def update_offs_raw (k : Kernel) (cfg : Tunables) (ca : linetcp) : Nat :=
  if update_t k ca < ca.K then (toU64 cfg.alpha * update_t k ca) % 18446744073709551616
  else (toU64 cfg.gamma * update_t k ca) % 18446744073709551616

/-- The local `offs` of `linetcp_update` after `offs = offs ?: 100*cwnd`; the
fallback product is a 32-bit unsigned one. -/
def update_offs (k : Kernel) (cfg : Tunables) (ca : linetcp) (cwnd : Nat) : Nat :=
  if update_offs_raw k cfg ca ≠ 0 then update_offs_raw k cfg ca
  else (100 * cwnd) % 4294967296

/-- Embedding of `linetcp_update`.  The result is `none` when one of its two
divisions, `last_max_cwnd / alpha` and `cwnd / offs`, has a zero divisor. -/
def linetcp_update (k : Kernel) (cfg : Tunables) (tcp_jiffies32 : Nat)
    (ca : linetcp) (cwnd : Nat) (_acked : Nat) : Option linetcp :=
  if ca.epoch_start = 0 ∧ toU32 cfg.alpha = 0 then none
  else if update_offs k cfg (epoch_open cfg tcp_jiffies32 ca) cwnd = 0 then none
  else
    let ca1 := epoch_open cfg tcp_jiffies32 ca
    let cnt0 := (cwnd / update_offs k cfg ca1 cwnd) % 4294967296
    let cnt1 := if ca1.last_max_cwnd = 0 ∧ cnt0 > 20 then 20 else cnt0
    some { ca1 with cnt := max cnt1 2 }

/-- The last two statements of `linetcp_cong_avoid`: run the update on the
current `snd_cwnd`, then hand the new `cnt` to `tcp_cong_avoid_ai`. -/
def cong_avoid_tail (k : Kernel) (cfg : Tunables) (tcp_jiffies32 : Nat)
    (ca : linetcp) (tp : tcp_sock) (acked : Nat) : Option (linetcp × tcp_sock) :=
  match linetcp_update k cfg tcp_jiffies32 ca tp.snd_cwnd acked with
  | none => none
  | some ca1 => some (ca1, k.tcp_cong_avoid_ai tp ca1.cnt acked)

/-- Embedding of `linetcp_cong_avoid`. -/
def linetcp_cong_avoid (k : Kernel) (cfg : Tunables) (tcp_jiffies32 : Nat)
    (ca : linetcp) (tp : tcp_sock) (acked : Nat) : Option (linetcp × tcp_sock) :=
  if k.tcp_is_cwnd_limited tp = false then some (ca, tp)
  else if k.tcp_in_slow_start tp = true then
    if (k.tcp_slow_start tp acked).2 = 0 then some (ca, (k.tcp_slow_start tp acked).1)
    else cong_avoid_tail k cfg tcp_jiffies32 ca
           (k.tcp_slow_start tp acked).1 (k.tcp_slow_start tp acked).2
  else cong_avoid_tail k cfg tcp_jiffies32 ca tp acked

/-- The socket and the acked count with which `linetcp_cong_avoid` reaches
`linetcp_update`, or `none` when it returns before that. -/
def cong_avoid_gate (k : Kernel) (tp : tcp_sock) (acked : Nat) : Option (tcp_sock × Nat) :=
  if k.tcp_is_cwnd_limited tp = false then none
  else if k.tcp_in_slow_start tp = true then
    if (k.tcp_slow_start tp acked).2 = 0 then none
    else some (k.tcp_slow_start tp acked)
  else some (tp, acked)

/-- Embedding of `linetcp_recalc_ssthresh`: the new state and the returned
threshold.  The product `snd_cwnd * beta` is a 32-bit unsigned one. -/
def linetcp_recalc_ssthresh (cfg : Tunables) (ca : linetcp) (tp : tcp_sock) : linetcp × Nat :=
  ({ ca with epoch_start := 0, last_max_cwnd := tp.snd_cwnd },
   max (((tp.snd_cwnd * toU32 cfg.beta) % 4294967296) / BICTCP_BETA_SCALE) 2)

/-- Embedding of `linetcp_state`. -/
def linetcp_state (k : Kernel) (ca : linetcp) (new_state : Nat) : linetcp :=
  if new_state = k.TCP_CA_Loss then linetcp_reset ca else ca

/-- The local `delay` of `linetcp_acked`: `(rtt_us << 3) / USEC_PER_MSEC` with
the shift done in `s32`, the signed division truncating, the quotient stored in
a `u32`, and zero replaced by one. -/
def acked_delay (rtt_us : Int) : Nat :=
  if toU32 (Int.tdiv (toS32 (rtt_us * 8)) USEC_PER_MSEC) = 0 then 1
  else toU32 (Int.tdiv (toS32 (rtt_us * 8)) USEC_PER_MSEC)

/-- The age of the open epoch as `linetcp_acked` computes it:
`(s32)(tcp_jiffies32 - ca->epoch_start)`. -/
def epoch_age (tcp_jiffies32 : Nat) (ca : linetcp) : Int :=
  toS32 ((tcp_jiffies32 : Int) - (ca.epoch_start : Int))

/-- Embedding of `linetcp_acked`. -/
def linetcp_acked (k : Kernel) (tcp_jiffies32 : Nat) (ca : linetcp)
    (sample : ack_sample) : linetcp :=
  if sample.rtt_us < 0 then ca
  else if ca.epoch_start ≠ 0 ∧ epoch_age tcp_jiffies32 ca < (k.HZ : Int) then ca
  else if ca.delay_min = 0 ∨ ca.delay_min > acked_delay sample.rtt_us then
    { ca with delay_min := acked_delay sample.rtt_us }
  else ca

/-! ## Sequences of callbacks -/

/-- One invocation of an entry of the `tcp_congestion_ops` table, with the
inputs the kernel passes or lets the callback read. -/
inductive Call where
  | init (tp : tcp_sock)
  | cong_avoid (tcp_jiffies32 : Nat) (tp : tcp_sock) (acked : Nat)
  | ssthresh (tp : tcp_sock)
  | set_state (new_state : Nat)
  | pkts_acked (tcp_jiffies32 : Nat) (sample : ack_sample)
deriving DecidableEq, Repr

/-- Effect of one call on the controller state. -/
def dispatch (k : Kernel) (cfg : Tunables) (ca : linetcp) : Call → Option linetcp
  | .init tp => some (linetcp_init cfg ca tp).1
  | .cong_avoid j tp acked => (linetcp_cong_avoid k cfg j ca tp acked).map Prod.fst
  | .ssthresh tp => some (linetcp_recalc_ssthresh cfg ca tp).1
  | .set_state new_state => some (linetcp_state k ca new_state)
  | .pkts_acked j sample => some (linetcp_acked k j ca sample)

/-- Effect of a sequence of calls, first call first. -/
def run (k : Kernel) (cfg : Tunables) (ca : linetcp) : List Call → Option linetcp
  | [] => some ca
  | c :: cs =>
    match dispatch k cfg ca c with
    | none => none
    | some ca1 => run k cfg ca1 cs

/-- States the controller can be in: the result of `linetcp_init`, and whatever
a call produces from such a state. -/
inductive Reachable (k : Kernel) (cfg : Tunables) : linetcp → Prop where
  | start (ca0 : linetcp) (tp : tcp_sock) : Reachable k cfg (linetcp_init cfg ca0 tp).1
  | call (ca ca1 : linetcp) (c : Call) :
      Reachable k cfg ca → dispatch k cfg ca c = some ca1 → Reachable k cfg ca1

/-- A call that resets the controller: `init`, or `set_state` with the loss state. -/
def Call.isReset (k : Kernel) : Call → Bool
  | .init _ => true
  | .set_state new_state => decide (new_state = k.TCP_CA_Loss)
  | _ => false

/-! ## A concrete host, for evaluation

The generic helpers as Linux defines them (`net/ipv4/tcp_cong.c`,
`include/net/tcp.h`), with a 1000 Hz tick.  They are not part of this
repository; they serve only to evaluate the callbacks on concrete inputs. -/

/-- Linux's `tcp_slow_start`. -/
def linux_tcp_slow_start (tp : tcp_sock) (acked : Nat) : tcp_sock × Nat :=
  ({ tp with snd_cwnd := min (min ((tp.snd_cwnd + acked) % 4294967296) tp.snd_ssthresh)
                             tp.snd_cwnd_clamp },
   toU32 ((acked : Int) -
     ((min ((tp.snd_cwnd + acked) % 4294967296) tp.snd_ssthresh : Nat) : Int) +
     (tp.snd_cwnd : Int)))

/-- Linux's `tcp_cong_avoid_ai`, for a non-zero `w`. -/
def linux_tcp_cong_avoid_ai (tp : tcp_sock) (w : Nat) (acked : Nat) : tcp_sock :=
  let tp1 := if tp.snd_cwnd_cnt ≥ w then
      { tp with snd_cwnd_cnt := 0, snd_cwnd := (tp.snd_cwnd + 1) % 4294967296 }
    else tp
  let tp2 := { tp1 with snd_cwnd_cnt := (tp1.snd_cwnd_cnt + acked) % 4294967296 }
  let tp3 := if tp2.snd_cwnd_cnt ≥ w then
      { tp2 with snd_cwnd_cnt := tp2.snd_cwnd_cnt % w,
                 snd_cwnd := (tp2.snd_cwnd + tp2.snd_cwnd_cnt / w) % 4294967296 }
    else tp2
  { tp3 with snd_cwnd := min tp3.snd_cwnd tp3.snd_cwnd_clamp }

/-- A host with `HZ = 1000` and Linux's generic helpers. -/
def linuxHost : Kernel :=
  { HZ := 1000
    TCP_CA_Loss := 4
    msecs_to_jiffies := fun m => m
    tcp_is_cwnd_limited := fun tp =>
      if tp.snd_cwnd < tp.snd_ssthresh then decide (tp.snd_cwnd < 2 * tp.max_packets_out)
      else tp.is_cwnd_limited
    tcp_in_slow_start := fun tp => decide (tp.snd_cwnd < tp.snd_ssthresh)
    tcp_slow_start := linux_tcp_slow_start
    tcp_cong_avoid_ai := linux_tcp_cong_avoid_ai }

/-- The all-zero controller state. -/
def zeroCa : linetcp :=
  { cnt := 0, last_max_cwnd := 0, K := 0, delay_min := 0, epoch_start := 0 }

/-- A socket past slow start with the given window, cwnd-limited or not. -/
def sockAt (cwnd : Nat) (limited : Bool) : tcp_sock :=
  { snd_cwnd := cwnd, snd_ssthresh := 2, snd_cwnd_cnt := 0,
    snd_cwnd_clamp := 4294967295, max_packets_out := cwnd, is_cwnd_limited := limited }

/-- A controller state with every field set, used to exercise the callbacks. -/
def busyCa : linetcp :=
  { cnt := 7, last_max_cwnd := 400, K := 200, delay_min := 160, epoch_start := 9000 }

/-- A controller state in its first epoch (no loss recorded yet) that has
already seen a delay sample of one millisecond. -/
def firstEpochCa : linetcp :=
  { cnt := 0, last_max_cwnd := 0, K := 0, delay_min := 8, epoch_start := 0 }

/-- A sequence of calls without a reset: three samples, an ack batch, a
threshold recalculation and a transition to the recovery state. -/
def noResetCalls : List Call :=
  [Call.pkts_acked 20000 { pkts_acked := 1, rtt_us := 10000, in_flight := 10 },
   Call.cong_avoid 20001
     { snd_cwnd := 100, snd_ssthresh := 2, snd_cwnd_cnt := 0, snd_cwnd_clamp := 4294967295,
       max_packets_out := 100, is_cwnd_limited := true } 1,
   Call.ssthresh
     { snd_cwnd := 100, snd_ssthresh := 2, snd_cwnd_cnt := 0, snd_cwnd_clamp := 4294967295,
       max_packets_out := 100, is_cwnd_limited := true },
   Call.pkts_acked 20002 { pkts_acked := 1, rtt_us := 30000, in_flight := 10 },
   Call.set_state 3,
   Call.pkts_acked 20003 { pkts_acked := 1, rtt_us := 4000, in_flight := 10 }]

/-- An `ack_sample` carrying the given `rtt_us`. -/
def sampleOf (rtt_us : Int) : ack_sample :=
  { pkts_acked := 1, rtt_us := rtt_us, in_flight := 10 }

/-- A controller state inside an open epoch that follows a loss at 400
segments, with the given `delay_min`. -/
def caWithDelay (d : Nat) : linetcp :=
  { cnt := 7, last_max_cwnd := 400, K := 200, delay_min := d, epoch_start := 9000 }

/-- A controller state right after a loss at 400 segments: no epoch is open,
`K` still holds a stale value. -/
def closedEpochCa : linetcp :=
  { cnt := 7, last_max_cwnd := 400, K := 77, delay_min := 160, epoch_start := 0 }

/-- A controller state with the same `delay_min` as `caWithDelay 40` whose
crossover point lies below `t`: after a loss at 3 segments, `K` becomes 1 when
the epoch opens, while `t` is 5. -/
def pastCrossoverCa : linetcp :=
  { cnt := 0, last_max_cwnd := 3, K := 0, delay_min := 40, epoch_start := 0 }

/-- A cwnd-limited socket in slow start: window 10, threshold 100. -/
def slowStartSock : tcp_sock :=
  { snd_cwnd := 10, snd_ssthresh := 100, snd_cwnd_cnt := 0,
    snd_cwnd_clamp := 4294967295, max_packets_out := 10, is_cwnd_limited := true }

/-! ## Descriptions to compare the code with -/

/-- The divisor as the formula of the specification gives it, every product
and quotient taken over the natural numbers: `o` is `alpha * t` when `t < K` and
`gamma * t` otherwise, the offset is `o` when that is non-zero and `100 * cwnd`
otherwise, `q` is `cwnd / offset`, clamped to 20 when `last_max_cwnd = 0` and
`q > 20`, and the result is at least 2. -/
def divisor_formula (alpha gamma K t last_max_cwnd cwnd : Nat) : Nat :=
  max 2 (if last_max_cwnd = 0 ∧
            cwnd / (if (if t < K then alpha * t else gamma * t) ≠ 0
                    then (if t < K then alpha * t else gamma * t) else 100 * cwnd) > 20
         then 20
         else cwnd / (if (if t < K then alpha * t else gamma * t) ≠ 0
                      then (if t < K then alpha * t else gamma * t) else 100 * cwnd))

/-- The offset computed without the crossover test: `2 * t` whatever `K` is (a
64-bit unsigned product, `t` being `msecs_to_jiffies(delay_min >> 3)`), then the
zero fallback `100 * cwnd` (a 32-bit unsigned product). -/
def offs_without_crossover (k : Kernel) (delay_min cwnd : Nat) : Nat :=
  if (2 * (k.msecs_to_jiffies (delay_min / 8) % 18446744073709551616))
        % 18446744073709551616 ≠ 0
  then (2 * (k.msecs_to_jiffies (delay_min / 8) % 18446744073709551616))
        % 18446744073709551616
  else (100 * cwnd) % 4294967296

/-- The divisor computed without the crossover test: the quotient of `cwnd` by
`offs_without_crossover`, clamped to 20 when no loss has been recorded, and to
at least 2.  It reads `delay_min`, `cwnd` and whether `last_max_cwnd` is zero,
and nothing else. -/
def cnt_without_crossover (k : Kernel) (delay_min : Nat) (no_loss_yet : Bool)
    (cwnd : Nat) : Nat :=
  max (if no_loss_yet = true ∧
          (cwnd / offs_without_crossover k delay_min cwnd) % 4294967296 > 20
       then 20
       else (cwnd / offs_without_crossover k delay_min cwnd) % 4294967296) 2

/-! ## General facts about the update and the gate -/

/-- The zero state is what `linetcp_reset` produces. -/
theorem linetcp_reset_eq (ca : linetcp) : linetcp_reset ca = zeroCa := rfl

/-- Opening the epoch touches only `epoch_start` and `K`. -/
theorem epoch_open_frame (cfg : Tunables) (j : Nat) (ca : linetcp) :
    (epoch_open cfg j ca).cnt = ca.cnt ∧
    (epoch_open cfg j ca).last_max_cwnd = ca.last_max_cwnd ∧
    (epoch_open cfg j ca).delay_min = ca.delay_min := by
  unfold epoch_open
  split <;> simp

/-- When neither division of `linetcp_update` has a zero divisor, the update
returns the epoch-opened state with the clamped quotient as `cnt`. -/
theorem linetcp_update_eq (k : Kernel) (cfg : Tunables) (j : Nat) (ca : linetcp)
    (cwnd acked : Nat)
    (hα : ¬ (ca.epoch_start = 0 ∧ toU32 cfg.alpha = 0))
    (hoffs : update_offs k cfg (epoch_open cfg j ca) cwnd ≠ 0) :
    linetcp_update k cfg j ca cwnd acked =
      some { epoch_open cfg j ca with
        cnt := max (if (epoch_open cfg j ca).last_max_cwnd = 0 ∧
                        (cwnd / update_offs k cfg (epoch_open cfg j ca) cwnd) % 4294967296 > 20
                    then 20
                    else (cwnd / update_offs k cfg (epoch_open cfg j ca) cwnd) % 4294967296) 2 } := by
  unfold linetcp_update
  rw [if_neg hα, if_neg hoffs]

/-- A result of `linetcp_update` means that no divisor was zero. -/
theorem linetcp_update_some (k : Kernel) (cfg : Tunables) (j : Nat) (ca ca1 : linetcp)
    (cwnd acked : Nat) (h : linetcp_update k cfg j ca cwnd acked = some ca1) :
    ¬ (ca.epoch_start = 0 ∧ toU32 cfg.alpha = 0) ∧
    update_offs k cfg (epoch_open cfg j ca) cwnd ≠ 0 := by
  unfold linetcp_update at h
  by_cases hα : ca.epoch_start = 0 ∧ toU32 cfg.alpha = 0
  · rw [if_pos hα] at h
    cases h
  · by_cases hoffs : update_offs k cfg (epoch_open cfg j ca) cwnd = 0
    · rw [if_neg hα, if_pos hoffs] at h
      cases h
    · exact ⟨hα, hoffs⟩

/-- Every result of `linetcp_update` has `cnt` at least two. -/
theorem linetcp_update_cnt_ge (k : Kernel) (cfg : Tunables) (j : Nat) (ca ca1 : linetcp)
    (cwnd acked : Nat) (h : linetcp_update k cfg j ca cwnd acked = some ca1) :
    2 ≤ ca1.cnt := by
  obtain ⟨hα, hoffs⟩ := linetcp_update_some k cfg j ca ca1 cwnd acked h
  rw [linetcp_update_eq k cfg j ca cwnd acked hα hoffs] at h
  cases h
  exact le_max_right _ _

/-- The update leaves `last_max_cwnd` and `delay_min` alone. -/
theorem linetcp_update_frame (k : Kernel) (cfg : Tunables) (j : Nat) (ca ca1 : linetcp)
    (cwnd acked : Nat) (h : linetcp_update k cfg j ca cwnd acked = some ca1) :
    ca1.last_max_cwnd = ca.last_max_cwnd ∧ ca1.delay_min = ca.delay_min := by
  obtain ⟨hα, hoffs⟩ := linetcp_update_some k cfg j ca ca1 cwnd acked h
  rw [linetcp_update_eq k cfg j ca cwnd acked hα hoffs] at h
  cases h
  exact ⟨(epoch_open_frame cfg j ca).2.1, (epoch_open_frame cfg j ca).2.2⟩

/-- A call of `linetcp_cong_avoid` that passes the gate is the tail applied to
what the gate lets through. -/
theorem linetcp_cong_avoid_of_gate (k : Kernel) (cfg : Tunables) (j : Nat) (ca : linetcp)
    (tp tp1 : tcp_sock) (acked acked1 : Nat)
    (hgate : cong_avoid_gate k tp acked = some (tp1, acked1)) :
    linetcp_cong_avoid k cfg j ca tp acked = cong_avoid_tail k cfg j ca tp1 acked1 := by
  unfold cong_avoid_gate at hgate
  unfold linetcp_cong_avoid
  by_cases h1 : k.tcp_is_cwnd_limited tp = false
  · simp [h1] at hgate
  · by_cases h2 : k.tcp_in_slow_start tp = true
    · by_cases h3 : (k.tcp_slow_start tp acked).2 = 0
      · simp [h1, h2, h3] at hgate
      · rw [if_neg h1, if_pos h2, if_neg h3] at hgate ⊢
        have he : k.tcp_slow_start tp acked = (tp1, acked1) := Option.some.inj hgate
        rw [he]
    · rw [if_neg h1, if_neg h2] at hgate ⊢
      cases hgate
      rfl

/-- A call of `linetcp_cong_avoid` that the gate stops returns the controller
state it was given. -/
theorem linetcp_cong_avoid_of_gate_none (k : Kernel) (cfg : Tunables) (j : Nat)
    (ca : linetcp) (tp : tcp_sock) (acked : Nat)
    (hgate : cong_avoid_gate k tp acked = none) :
    ∃ tp1, linetcp_cong_avoid k cfg j ca tp acked = some (ca, tp1) := by
  unfold cong_avoid_gate at hgate
  unfold linetcp_cong_avoid
  by_cases h1 : k.tcp_is_cwnd_limited tp = false
  · exact ⟨tp, by simp [h1]⟩
  · by_cases h2 : k.tcp_in_slow_start tp = true
    · by_cases h3 : (k.tcp_slow_start tp acked).2 = 0
      · exact ⟨(k.tcp_slow_start tp acked).1, by simp [h1, h2, h3]⟩
      · simp [h1, h2, h3] at hgate
    · simp [h1, h2] at hgate

/-- Whatever `linetcp_cong_avoid` returns, `last_max_cwnd` and `delay_min` are
as before the call. -/
theorem linetcp_cong_avoid_frame (k : Kernel) (cfg : Tunables) (j : Nat) (ca : linetcp)
    (tp : tcp_sock) (acked : Nat) (r : linetcp × tcp_sock)
    (h : linetcp_cong_avoid k cfg j ca tp acked = some r) :
    r.1.last_max_cwnd = ca.last_max_cwnd ∧ r.1.delay_min = ca.delay_min := by
  cases hg : cong_avoid_gate k tp acked with
  | none =>
    obtain ⟨tp1, h1⟩ := linetcp_cong_avoid_of_gate_none k cfg j ca tp acked hg
    rw [h1] at h
    cases h
    exact ⟨rfl, rfl⟩
  | some g =>
    rw [linetcp_cong_avoid_of_gate k cfg j ca tp g.1 acked g.2 hg] at h
    unfold cong_avoid_tail at h
    cases hu : linetcp_update k cfg j ca g.1.snd_cwnd g.2 with
    | none => rw [hu] at h; cases h
    | some ca1 =>
      rw [hu] at h
      cases h
      exact linetcp_update_frame k cfg j ca ca1 g.1.snd_cwnd g.2 hu

/-- The delay computed from a sample is never zero. -/
theorem acked_delay_ne_zero (rtt_us : Int) : acked_delay rtt_us ≠ 0 := by
  unfold acked_delay
  split
  · decide
  · assumption

/-- An accepted sample: `linetcp_acked` on a non-negative sample that is not
within `HZ` ticks of an open epoch writes `delay_min` when it is unset or larger
than the computed delay, and nothing else. -/
theorem linetcp_acked_accepted (k : Kernel) (j : Nat) (ca : linetcp) (sample : ack_sample)
    (hnn : 0 ≤ sample.rtt_us)
    (hlate : ca.epoch_start = 0 ∨ (k.HZ : Int) ≤ epoch_age j ca) :
    linetcp_acked k j ca sample =
      { ca with delay_min :=
          if ca.delay_min = 0 ∨ ca.delay_min > acked_delay sample.rtt_us
          then acked_delay sample.rtt_us else ca.delay_min } := by
  have h1 : ¬ sample.rtt_us < 0 := not_lt.mpr hnn
  have h2 : ¬ (ca.epoch_start ≠ 0 ∧ epoch_age j ca < (k.HZ : Int)) := by
    rintro ⟨hne, hlt⟩
    rcases hlate with h0 | hge
    · exact hne h0
    · exact absurd hlt (not_lt.mpr hge)
  unfold linetcp_acked
  rw [if_neg h1, if_neg h2]
  split <;> rfl

/-- Whatever the sample and the clock, `linetcp_acked` changes no field other
than `delay_min`; a set `delay_min` stays set and does not grow. -/
theorem linetcp_acked_delay_min (k : Kernel) (j : Nat) (ca : linetcp) (sample : ack_sample) :
    (linetcp_acked k j ca sample).cnt = ca.cnt ∧
    (linetcp_acked k j ca sample).last_max_cwnd = ca.last_max_cwnd ∧
    (linetcp_acked k j ca sample).K = ca.K ∧
    (linetcp_acked k j ca sample).epoch_start = ca.epoch_start ∧
    (ca.delay_min ≠ 0 →
      (linetcp_acked k j ca sample).delay_min ≠ 0 ∧
      (linetcp_acked k j ca sample).delay_min ≤ ca.delay_min) := by
  unfold linetcp_acked
  split
  · exact ⟨rfl, rfl, rfl, rfl, fun h => ⟨h, le_refl _⟩⟩
  · split
    · exact ⟨rfl, rfl, rfl, rfl, fun h => ⟨h, le_refl _⟩⟩
    · split
      · rename_i hcond
        refine ⟨rfl, rfl, rfl, rfl, fun h => ⟨acked_delay_ne_zero _, ?_⟩⟩
        rcases hcond with h0 | hgt
        · exact absurd h0 h
        · exact le_of_lt hgt
      · exact ⟨rfl, rfl, rfl, rfl, fun h => ⟨h, le_refl _⟩⟩

/-- In the range `0 ≤ rtt_us < 2^28`, where `rtt_us << 3` fits an `s32`, the
computed delay is `max 1 (8 * rtt_us / 1000)`. -/
theorem acked_delay_no_wrap (rtt_us : Int) (h0 : 0 ≤ rtt_us) (h1 : rtt_us < 268435456) :
    (acked_delay rtt_us : Int) = max 1 (8 * rtt_us / 1000) := by
  have hs : toS32 (rtt_us * 8) = rtt_us * 8 := by
    unfold toS32
    omega
  have hq0 : 0 ≤ rtt_us * 8 / 1000 := Int.ediv_nonneg (by omega) (by decide)
  have hq1 : rtt_us * 8 / 1000 < 4294967296 := by omega
  have ht : Int.tdiv (rtt_us * 8) 1000 = rtt_us * 8 / 1000 :=
    Int.tdiv_eq_ediv (by omega) (by decide)
  have hu : (toU32 (rtt_us * 8 / 1000) : Int) = rtt_us * 8 / 1000 := by
    unfold toU32
    rw [Int.toNat_of_nonneg (Int.emod_nonneg _ (by decide))]
    exact Int.emod_eq_of_lt hq0 hq1
  unfold acked_delay USEC_PER_MSEC
  rw [hs, ht]
  have hcomm : 8 * rtt_us / 1000 = rtt_us * 8 / 1000 := by rw [Int.mul_comm]
  rw [hcomm]
  split
  · rename_i hz
    have : rtt_us * 8 / 1000 = 0 := by rw [← hu, hz]; rfl
    rw [this]
    rfl
  · rename_i hz
    rw [hu]
    have : rtt_us * 8 / 1000 ≠ 0 := by
      intro h
      apply hz
      have : (toU32 (rtt_us * 8 / 1000) : Int) = 0 := by rw [hu, h]
      exact_mod_cast this
    have hpos : 1 ≤ rtt_us * 8 / 1000 := by omega
    exact (max_eq_right hpos).symm

/-- One call that is not a reset keeps a set `delay_min` set and does not
raise it. -/
theorem dispatch_delay_min (k : Kernel) (cfg : Tunables) (ca ca1 : linetcp) (c : Call)
    (hnr : Call.isReset k c = false) (hd : dispatch k cfg ca c = some ca1)
    (hset : ca.delay_min ≠ 0) :
    ca1.delay_min ≠ 0 ∧ ca1.delay_min ≤ ca.delay_min := by
  cases c with
  | init tp => simp [Call.isReset] at hnr
  | cong_avoid j tp acked =>
    simp only [dispatch, Option.map_eq_some'] at hd
    obtain ⟨r, hr, hfst⟩ := hd
    have hf := (linetcp_cong_avoid_frame k cfg j ca tp acked r hr).2
    rw [← hfst, hf]
    exact ⟨hset, le_refl _⟩
  | ssthresh tp =>
    simp only [dispatch, Option.some.injEq] at hd
    rw [← hd]
    exact ⟨hset, le_refl _⟩
  | set_state new_state =>
    simp only [Call.isReset, decide_eq_false_iff_not] at hnr
    simp only [dispatch, linetcp_state, if_neg hnr, Option.some.injEq] at hd
    rw [← hd]
    exact ⟨hset, le_refl _⟩
  | pkts_acked j sample =>
    simp only [dispatch, Option.some.injEq] at hd
    rw [← hd]
    exact (linetcp_acked_delay_min k j ca sample).2.2.2.2 hset

/-- A sequence of calls without a reset keeps a set `delay_min` set and does not
raise it. -/
theorem run_delay_min (k : Kernel) (cfg : Tunables) (cs : List Call) :
    ∀ (ca ca1 : linetcp), (∀ c ∈ cs, Call.isReset k c = false) →
      run k cfg ca cs = some ca1 → ca.delay_min ≠ 0 →
      ca1.delay_min ≠ 0 ∧ ca1.delay_min ≤ ca.delay_min := by
  induction cs with
  | nil =>
    intro ca ca1 _ hrun hset
    simp only [run, Option.some.injEq] at hrun
    rw [← hrun]
    exact ⟨hset, le_refl _⟩
  | cons c cs ih =>
    intro ca ca1 hnr hrun hset
    unfold run at hrun
    cases hd : dispatch k cfg ca c with
    | none => rw [hd] at hrun; cases hrun
    | some ca2 =>
      rw [hd] at hrun
      have h1 := dispatch_delay_min k cfg ca ca2 c (hnr c (List.mem_cons_self c cs)) hd hset
      have h2 := ih ca2 ca1 (fun c' hc' => hnr c' (List.mem_cons_of_mem c hc')) hrun h1.1
      exact ⟨h2.1, le_trans h2.2 h1.2⟩

/-! ## The claims -/

/-- C1, as stated, fails: right after `linetcp_init` a call of
`linetcp_cong_avoid` on a socket that is not cwnd-limited returns with `cnt`
still 0, so `cnt ≥ 2` does not hold after every call. -/
theorem C1_gated_call_keeps_cnt_zero :
    Reachable linuxHost defaultTunables (linetcp_init defaultTunables zeroCa (sockAt 10 false)).1 ∧
    (linetcp_cong_avoid linuxHost defaultTunables 5000
        (linetcp_init defaultTunables zeroCa (sockAt 10 false)).1 (sockAt 10 false) 1).map
      (fun r => r.1.cnt) = some 0 :=
  ⟨Reachable.start zeroCa (sockAt 10 false), by decide⟩

/-- C1 (amended): for every controller state, whatever the host and the
parameters, a call of `linetcp_cong_avoid` that reaches the update step (the
socket is cwnd-limited and, in slow start, the remainder is non-zero) ends with
`cnt ≥ 2` whenever it returns, and it does return when neither divisor of the
update is zero. -/
theorem C1_floor_when_update_runs (k : Kernel) (cfg : Tunables) (j : Nat) (ca : linetcp)
    (tp tp1 : tcp_sock) (acked acked1 : Nat)
    (hgate : cong_avoid_gate k tp acked = some (tp1, acked1)) :
    (∀ r, linetcp_cong_avoid k cfg j ca tp acked = some r → 2 ≤ r.1.cnt) ∧
    (¬ (ca.epoch_start = 0 ∧ toU32 cfg.alpha = 0) →
      update_offs k cfg (epoch_open cfg j ca) tp1.snd_cwnd ≠ 0 →
      ∃ r, linetcp_cong_avoid k cfg j ca tp acked = some r ∧ 2 ≤ r.1.cnt) := by
  rw [linetcp_cong_avoid_of_gate k cfg j ca tp tp1 acked acked1 hgate]
  have key : ∀ r, cong_avoid_tail k cfg j ca tp1 acked1 = some r → 2 ≤ r.1.cnt := by
    intro r hr
    unfold cong_avoid_tail at hr
    cases hu : linetcp_update k cfg j ca tp1.snd_cwnd acked1 with
    | none => rw [hu] at hr; cases hr
    | some ca1 =>
      rw [hu] at hr
      cases hr
      exact linetcp_update_cnt_ge k cfg j ca ca1 tp1.snd_cwnd acked1 hu
  refine ⟨key, fun hα hoffs => ?_⟩
  have hu := linetcp_update_eq k cfg j ca tp1.snd_cwnd acked1 hα hoffs
  have ht : ∃ r, cong_avoid_tail k cfg j ca tp1 acked1 = some r := by
    unfold cong_avoid_tail
    rw [hu]
    exact ⟨_, rfl⟩
  obtain ⟨r, hr⟩ := ht
  exact ⟨r, hr, key r hr⟩

/-- Witness for C1: a fresh controller, a cwnd-limited socket past slow start
with a window of 100 segments. -/
theorem C1_floor_when_update_runs_witness :
    cong_avoid_gate linuxHost (sockAt 100 true) 1 = some (sockAt 100 true, 1) ∧
    ((∀ r, linetcp_cong_avoid linuxHost defaultTunables 5000 zeroCa (sockAt 100 true) 1 = some r →
        2 ≤ r.1.cnt) ∧
     (¬ (zeroCa.epoch_start = 0 ∧ toU32 defaultTunables.alpha = 0) →
      update_offs linuxHost defaultTunables (epoch_open defaultTunables 5000 zeroCa)
        (sockAt 100 true).snd_cwnd ≠ 0 →
      ∃ r, linetcp_cong_avoid linuxHost defaultTunables 5000 zeroCa (sockAt 100 true) 1 = some r ∧
        2 ≤ r.1.cnt)) :=
  ⟨by decide,
   C1_floor_when_update_runs linuxHost defaultTunables 5000 zeroCa (sockAt 100 true)
     (sockAt 100 true) 1 1 (by decide)⟩

/-- In the range where the 32-bit product `snd_cwnd * 717` does not wrap,
`linetcp_recalc_ssthresh` returns `max (snd_cwnd * 717 / 1024) 2`. -/
theorem recalc_ssthresh_no_wrap (ca : linetcp) (tp : tcp_sock)
    (h : tp.snd_cwnd * 717 < 4294967296) :
    (linetcp_recalc_ssthresh defaultTunables ca tp).2 = max (tp.snd_cwnd * 717 / 1024) 2 := by
  have hb : toU32 defaultTunables.beta = 717 := by decide
  unfold linetcp_recalc_ssthresh BICTCP_BETA_SCALE
  simp only [hb]
  rw [Nat.mod_eq_of_lt h]

/-- C2 at the failing input: with the default `beta = 717` and
`snd_cwnd = 5990193` the code returns 2, while `floor(5990193 * 717 / 1024)` is
4194305 (which exceeds 2); the 32-bit product `snd_cwnd * beta` has wrapped
to 1085.  At `snd_cwnd = 1000` the code returns 700, as the claim says. -/
theorem C2_threshold_wraps_at_5990193 :
    (linetcp_recalc_ssthresh defaultTunables zeroCa (sockAt 5990193 true)).2 = 2 ∧
    5990193 * 717 / 1024 = 4194305 ∧
    (5990193 * 717) % 4294967296 = 1085 ∧
    5990193 < 4294967296 ∧
    (linetcp_recalc_ssthresh defaultTunables zeroCa (sockAt 1000 true)).2 = 700 := by
  decide

/-- C3: whatever the parameters, the state and the window (zero and wrapping
products included), the threshold returned by `linetcp_recalc_ssthresh` is at
least 2. -/
theorem C3_threshold_ge_two (cfg : Tunables) (ca : linetcp) (tp : tcp_sock) :
    2 ≤ (linetcp_recalc_ssthresh cfg ca tp).2 := by
  unfold linetcp_recalc_ssthresh
  exact le_max_right _ _

/-- C4: `linetcp_state` with the loss state, and `linetcp_init`, leave `cnt`,
`last_max_cwnd`, `epoch_start`, `delay_min` and `K` all 0, from every state;
`linetcp_state` with any other state returns the controller state unchanged. -/
theorem C4_reset_completeness (k : Kernel) (cfg : Tunables) (ca : linetcp) (tp : tcp_sock)
    (new_state : Nat) (hother : new_state ≠ k.TCP_CA_Loss) :
    ((linetcp_state k ca k.TCP_CA_Loss).cnt = 0 ∧
     (linetcp_state k ca k.TCP_CA_Loss).last_max_cwnd = 0 ∧
     (linetcp_state k ca k.TCP_CA_Loss).epoch_start = 0 ∧
     (linetcp_state k ca k.TCP_CA_Loss).delay_min = 0 ∧
     (linetcp_state k ca k.TCP_CA_Loss).K = 0) ∧
    ((linetcp_init cfg ca tp).1.cnt = 0 ∧
     (linetcp_init cfg ca tp).1.last_max_cwnd = 0 ∧
     (linetcp_init cfg ca tp).1.epoch_start = 0 ∧
     (linetcp_init cfg ca tp).1.delay_min = 0 ∧
     (linetcp_init cfg ca tp).1.K = 0) ∧
    linetcp_state k ca new_state = ca := by
  refine ⟨?_, ?_, ?_⟩
  · simp [linetcp_state, linetcp_reset]
  · simp [linetcp_init, linetcp_reset]
  · unfold linetcp_state
    rw [if_neg hother]

/-- Witness for C4: a state with every field non-zero, and the transition to the
recovery state (3) on a host whose loss state is 4. -/
theorem C4_reset_completeness_witness :
    (3 : Nat) ≠ linuxHost.TCP_CA_Loss ∧
    linetcp_state linuxHost busyCa linuxHost.TCP_CA_Loss = zeroCa ∧
    (linetcp_init defaultTunables busyCa (sockAt 10 true)).1 = zeroCa ∧
    linetcp_state linuxHost busyCa 3 = busyCa :=
  ⟨by decide, by decide, by decide,
   (C4_reset_completeness linuxHost defaultTunables busyCa (sockAt 10 true) 3 (by decide)).2.2⟩

/-- C5: a sample with a negative `rtt_us` leaves the whole controller state
unchanged, whatever the state and the clock. -/
theorem C5_negative_sample_rejected (k : Kernel) (j : Nat) (ca : linetcp)
    (sample : ack_sample) (hneg : sample.rtt_us < 0) :
    linetcp_acked k j ca sample = ca ∧
    (linetcp_acked k j ca sample).delay_min = ca.delay_min := by
  have h : linetcp_acked k j ca sample = ca := by
    unfold linetcp_acked
    rw [if_pos hneg]
  exact ⟨h, by rw [h]⟩

/-- Witness for C5: `rtt_us = -1` on a fresh state, where any accepted sample
would have set `delay_min`. -/
theorem C5_negative_sample_rejected_witness :
    ((-1 : Int) < 0) ∧
    linetcp_acked linuxHost 5000 zeroCa (sampleOf (-1)) = zeroCa ∧
    (linetcp_acked linuxHost 5000 zeroCa (sampleOf (-1))).delay_min = zeroCa.delay_min :=
  ⟨by decide,
   C5_negative_sample_rejected linuxHost 5000 zeroCa (sampleOf (-1)) (by decide)⟩

/-- C6: a non-negative sample whose age `(s32)(tcp_jiffies32 - epoch_start)` is
below `HZ` while an epoch is open leaves the state unchanged; a non-negative
sample with no open epoch, or with age at least `HZ`, is used: afterwards
`delay_min` is non-zero and at most the delay computed from the sample. -/
theorem C6_stabilization_window (k : Kernel) (j : Nat) (ca : linetcp) (sample : ack_sample)
    (hnn : 0 ≤ sample.rtt_us) :
    (ca.epoch_start ≠ 0 → epoch_age j ca < (k.HZ : Int) → linetcp_acked k j ca sample = ca) ∧
    (ca.epoch_start = 0 ∨ (k.HZ : Int) ≤ epoch_age j ca →
      (linetcp_acked k j ca sample).delay_min ≠ 0 ∧
      (linetcp_acked k j ca sample).delay_min ≤ acked_delay sample.rtt_us) := by
  constructor
  · intro hne hlt
    unfold linetcp_acked
    rw [if_neg (not_lt.mpr hnn), if_pos ⟨hne, hlt⟩]
  · intro hlate
    rw [linetcp_acked_accepted k j ca sample hnn hlate]
    by_cases hc : ca.delay_min = 0 ∨ ca.delay_min > acked_delay sample.rtt_us
    · simp only [if_pos hc]
      exact ⟨acked_delay_ne_zero _, le_refl _⟩
    · simp only [if_neg hc]
      have h1 : ca.delay_min ≠ 0 := fun h => hc (Or.inl h)
      have h2 : ¬ ca.delay_min > acked_delay sample.rtt_us := fun h => hc (Or.inr h)
      exact ⟨h1, not_lt.mp h2⟩

/-- Witness for C6: an epoch opened at tick 9000 on a 1000 Hz host; a 10 ms
sample at tick 9500 is dropped, the same sample at tick 10000 lowers
`delay_min` from 160 to 80. -/
theorem C6_stabilization_window_witness :
    (0 : Int) ≤ (sampleOf 10000).rtt_us ∧
    linetcp_acked linuxHost 9500 busyCa (sampleOf 10000) = busyCa ∧
    (linetcp_acked linuxHost 10000 busyCa (sampleOf 10000)).delay_min ≠ 0 ∧
    (linetcp_acked linuxHost 10000 busyCa (sampleOf 10000)).delay_min = 80 :=
  ⟨by decide,
   (C6_stabilization_window linuxHost 9500 busyCa (sampleOf 10000) (by decide)).1
     (by decide) (by decide),
   ((C6_stabilization_window linuxHost 10000 busyCa (sampleOf 10000) (by decide)).2
     (Or.inr (by decide))).1,
   by decide⟩

/-- C7 at the failing inputs.  For `rtt_us = 536870912` (2^29) the shift
`rtt_us << 3` wraps to 0 in 32 bits, so the code records the delay 1, on a fresh
state and on a state whose `delay_min` is 160, where `max 1 (8 * rtt_us / 1000)`
is 4294967 and the minimum with 160 is 160.  For `rtt_us = 268435456` (2^28) the
shift wraps to the most negative `s32` and the code records 4292819813 instead
of 2147483. -/
theorem C7_delay_wraps_for_large_rtt :
    (linetcp_acked linuxHost 5000 zeroCa (sampleOf 536870912)).delay_min = 1 ∧
    (linetcp_acked linuxHost 20000 busyCa (sampleOf 536870912)).delay_min = 1 ∧
    max (1 : Int) (8 * 536870912 / 1000) = 4294967 ∧
    min (160 : Int) (max 1 (8 * 536870912 / 1000)) = 160 ∧
    (linetcp_acked linuxHost 5000 zeroCa (sampleOf 268435456)).delay_min = 4292819813 ∧
    max (1 : Int) (8 * 268435456 / 1000) = 2147483 := by
  decide

/-- C8: the congestion-avoidance call and the threshold recalculation never
change `delay_min`; and along every sequence of calls that contains no reset
(no `init`, no `set_state` to the loss state), a `delay_min` that is set stays
non-zero and ends no larger than it started. -/
theorem C8_delay_min_never_increases (k : Kernel) (cfg : Tunables) (cs : List Call)
    (ca ca1 : linetcp) (hnr : ∀ c ∈ cs, Call.isReset k c = false)
    (hrun : run k cfg ca cs = some ca1) :
    (ca.delay_min ≠ 0 → ca1.delay_min ≠ 0 ∧ ca1.delay_min ≤ ca.delay_min) ∧
    (∀ j tp acked r, linetcp_cong_avoid k cfg j ca tp acked = some r →
      r.1.delay_min = ca.delay_min) ∧
    (∀ tp, (linetcp_recalc_ssthresh cfg ca tp).1.delay_min = ca.delay_min) :=
  ⟨run_delay_min k cfg cs ca ca1 hnr hrun,
   fun j tp acked r hr => (linetcp_cong_avoid_frame k cfg j ca tp acked r hr).2,
   fun _ => rfl⟩

/-- Witness for C8: six calls without a reset take `delay_min` from 160 to 32. -/
theorem C8_delay_min_never_increases_witness :
    (∀ c ∈ noResetCalls, Call.isReset linuxHost c = false) ∧
    run linuxHost defaultTunables busyCa noResetCalls =
      some { cnt := 5, last_max_cwnd := 100, K := 200, delay_min := 32, epoch_start := 0 } ∧
    (busyCa.delay_min ≠ 0 → (32 : Nat) ≠ 0 ∧ 32 ≤ busyCa.delay_min) :=
  ⟨by decide, by decide,
   (C8_delay_min_never_increases linuxHost defaultTunables noResetCalls busyCa
     { cnt := 5, last_max_cwnd := 100, K := 200, delay_min := 32, epoch_start := 0 }
     (by decide) (by decide)).1⟩

/-- C9: when the update step runs on a 32-bit window with `last_max_cwnd = 0`,
the new `cnt` is at most 20, and exactly 20 when the quotient `cwnd / offs` is
above 20; with `last_max_cwnd ≠ 0` the new `cnt` is `max (cwnd / offs) 2`, with
no upper clamp.  The step returns whenever neither of its divisors is zero. -/
theorem C9_early_epoch_clamp (k : Kernel) (cfg : Tunables) (j : Nat) (ca : linetcp)
    (cwnd acked : Nat) (hcwnd : cwnd < 4294967296)
    (hα : ¬ (ca.epoch_start = 0 ∧ toU32 cfg.alpha = 0))
    (hoffs : update_offs k cfg (epoch_open cfg j ca) cwnd ≠ 0) :
    ∃ ca1, linetcp_update k cfg j ca cwnd acked = some ca1 ∧
      (ca.last_max_cwnd = 0 →
        ca1.cnt ≤ 20 ∧
        (20 < cwnd / update_offs k cfg (epoch_open cfg j ca) cwnd → ca1.cnt = 20)) ∧
      (ca.last_max_cwnd ≠ 0 →
        ca1.cnt = max (cwnd / update_offs k cfg (epoch_open cfg j ca) cwnd) 2) := by
  refine ⟨_, linetcp_update_eq k cfg j ca cwnd acked hα hoffs, ?_, ?_⟩
  all_goals
    have hq : cwnd / update_offs k cfg (epoch_open cfg j ca) cwnd % 4294967296 =
        cwnd / update_offs k cfg (epoch_open cfg j ca) cwnd :=
      Nat.mod_eq_of_lt (lt_of_le_of_lt (Nat.div_le_self _ _) hcwnd)
    have hl := (epoch_open_frame cfg j ca).2.1
    intro h0
    simp only [hq, hl]
  · constructor
    · by_cases hb : 20 < cwnd / update_offs k cfg (epoch_open cfg j ca) cwnd
      · simp [h0, hb]
      · simp only [h0, true_and, gt_iff_lt, if_neg hb]
        omega
    · intro hb
      simp [h0, hb]
  · simp [h0]

/-- Witness for C9: first epoch, one millisecond of delay (so `offs = 2`), a
window of 100 segments: the quotient 50 is clamped to 20. -/
theorem C9_early_epoch_clamp_witness :
    (100 : Nat) < 4294967296 ∧
    ¬ (firstEpochCa.epoch_start = 0 ∧ toU32 defaultTunables.alpha = 0) ∧
    update_offs linuxHost defaultTunables (epoch_open defaultTunables 5000 firstEpochCa) 100 = 2 ∧
    ∃ ca1, linetcp_update linuxHost defaultTunables 5000 firstEpochCa 100 1 = some ca1 ∧
      (firstEpochCa.last_max_cwnd = 0 →
        ca1.cnt ≤ 20 ∧
        (20 < 100 / update_offs linuxHost defaultTunables
            (epoch_open defaultTunables 5000 firstEpochCa) 100 → ca1.cnt = 20)) ∧
      (firstEpochCa.last_max_cwnd ≠ 0 →
        ca1.cnt = max (100 / update_offs linuxHost defaultTunables
            (epoch_open defaultTunables 5000 firstEpochCa) 100) 2) :=
  ⟨by decide, by decide, by decide,
   C9_early_epoch_clamp linuxHost defaultTunables 5000 firstEpochCa 100 1
     (by decide) (by decide) (by decide)⟩

/-- C10: `linetcp_recalc_ssthresh` sets `epoch_start` to 0 and `last_max_cwnd`
to the socket's current `snd_cwnd`, and leaves `cnt`, `delay_min` and `K` as
they were. -/
theorem C10_recalc_effect_and_frame (cfg : Tunables) (ca : linetcp) (tp : tcp_sock) :
    (linetcp_recalc_ssthresh cfg ca tp).1.epoch_start = 0 ∧
    (linetcp_recalc_ssthresh cfg ca tp).1.last_max_cwnd = tp.snd_cwnd ∧
    (linetcp_recalc_ssthresh cfg ca tp).1.cnt = ca.cnt ∧
    (linetcp_recalc_ssthresh cfg ca tp).1.delay_min = ca.delay_min ∧
    (linetcp_recalc_ssthresh cfg ca tp).1.K = ca.K :=
  ⟨rfl, rfl, rfl, rfl, rfl⟩

/-! ## Further facts used by the later claims -/

/-- Opening the epoch does not change the local `t` of the update. -/
theorem update_t_epoch_open (k : Kernel) (cfg : Tunables) (j : Nat) (ca : linetcp) :
    update_t k (epoch_open cfg j ca) = update_t k ca := by
  unfold update_t
  rw [(epoch_open_frame cfg j ca).2.2]

/-- A result of `linetcp_update` is the epoch-opened state with a new `cnt`:
`K`, `epoch_start`, `last_max_cwnd` and `delay_min` are those of `epoch_open`. -/
theorem linetcp_update_fields (k : Kernel) (cfg : Tunables) (j : Nat) (ca ca1 : linetcp)
    (cwnd acked : Nat) (h : linetcp_update k cfg j ca cwnd acked = some ca1) :
    ca1.K = (epoch_open cfg j ca).K ∧
    ca1.epoch_start = (epoch_open cfg j ca).epoch_start ∧
    ca1.last_max_cwnd = ca.last_max_cwnd ∧
    ca1.delay_min = ca.delay_min := by
  obtain ⟨hα, hoffs⟩ := linetcp_update_some k cfg j ca ca1 cwnd acked h
  rw [linetcp_update_eq k cfg j ca cwnd acked hα hoffs] at h
  cases h
  exact ⟨rfl, rfl, (epoch_open_frame cfg j ca).2.1, (epoch_open_frame cfg j ca).2.2⟩

/-- For a window of at least 1 and below 2^30 segments the divisor `offs` is
never zero, whatever the host, the parameters and the state. -/
theorem update_offs_ne_zero (k : Kernel) (cfg : Tunables) (ca : linetcp) (cwnd : Nat)
    (h1 : 1 ≤ cwnd) (h2 : cwnd < 1073741824) : update_offs k cfg ca cwnd ≠ 0 := by
  unfold update_offs
  split
  · assumption
  · omega

/-- C11, as stated, fails: after `init` and a threshold recalculation at 100
segments `last_max_cwnd` is 100, and a following `set_state` to the loss state
(4 on this host) moves it to 0. -/
theorem C11_loss_state_clears_last_max_cwnd :
    (run linuxHost defaultTunables busyCa
        [Call.init (sockAt 100 true), Call.ssthresh (sockAt 100 true)]).map
      (fun c => c.last_max_cwnd) = some 100 ∧
    (run linuxHost defaultTunables busyCa
        [Call.init (sockAt 100 true), Call.ssthresh (sockAt 100 true), Call.set_state 4]).map
      (fun c => c.last_max_cwnd) = some 0 := by
  decide

/-- C11 (amended): `linetcp_cong_avoid`, `linetcp_acked` and `linetcp_state`
with a state other than loss never change `last_max_cwnd`;
`linetcp_recalc_ssthresh` sets it to the socket's `snd_cwnd` at that call; and
`linetcp_state` with the loss state sets it to 0. -/
theorem C11_last_max_cwnd_writers (k : Kernel) (cfg : Tunables) (ca : linetcp) :
    (∀ j tp acked r, linetcp_cong_avoid k cfg j ca tp acked = some r →
      r.1.last_max_cwnd = ca.last_max_cwnd) ∧
    (∀ j sample, (linetcp_acked k j ca sample).last_max_cwnd = ca.last_max_cwnd) ∧
    (∀ new_state, new_state ≠ k.TCP_CA_Loss →
      (linetcp_state k ca new_state).last_max_cwnd = ca.last_max_cwnd) ∧
    (linetcp_state k ca k.TCP_CA_Loss).last_max_cwnd = 0 ∧
    (∀ tp, (linetcp_recalc_ssthresh cfg ca tp).1.last_max_cwnd = tp.snd_cwnd) := by
  refine ⟨fun j tp acked r hr => (linetcp_cong_avoid_frame k cfg j ca tp acked r hr).1,
    fun j sample => (linetcp_acked_delay_min k j ca sample).2.1, ?_, ?_, fun _ => rfl⟩
  · intro new_state hne
    unfold linetcp_state
    rw [if_neg hne]
  · simp [linetcp_state, linetcp_reset]

/-- Witness for C11: on a state with `last_max_cwnd = 400`, an ack batch and a
transition to the recovery state keep 400, a recalculation at 100 segments
gives 100. -/
theorem C11_last_max_cwnd_writers_witness :
    linetcp_cong_avoid linuxHost defaultTunables 20000 busyCa (sockAt 100 true) 1 =
      some ({ cnt := 2, last_max_cwnd := 400, K := 200, delay_min := 160, epoch_start := 9000 },
            linuxHost.tcp_cong_avoid_ai (sockAt 100 true) 2 1) ∧
    (3 : Nat) ≠ linuxHost.TCP_CA_Loss ∧
    (linetcp_state linuxHost busyCa 3).last_max_cwnd = busyCa.last_max_cwnd ∧
    (linetcp_recalc_ssthresh defaultTunables busyCa (sockAt 100 true)).1.last_max_cwnd = 100 ∧
    (linetcp_cong_avoid linuxHost defaultTunables 20000 busyCa (sockAt 100 true) 1 =
        some ({ cnt := 2, last_max_cwnd := 400, K := 200, delay_min := 160, epoch_start := 9000 },
              linuxHost.tcp_cong_avoid_ai (sockAt 100 true) 2 1) →
      (400 : Nat) = busyCa.last_max_cwnd) :=
  ⟨by decide, by decide,
   (C11_last_max_cwnd_writers linuxHost defaultTunables busyCa).2.2.1 3 (by decide),
   (C11_last_max_cwnd_writers linuxHost defaultTunables busyCa).2.2.2.2 (sockAt 100 true),
   (C11_last_max_cwnd_writers linuxHost defaultTunables busyCa).1 20000 (sockAt 100 true) 1
     ({ cnt := 2, last_max_cwnd := 400, K := 200, delay_min := 160, epoch_start := 9000 },
      linuxHost.tcp_cong_avoid_ai (sockAt 100 true) 2 1)⟩

/-- C12: a call of `linetcp_cong_avoid` on a socket that is not cwnd-limited
returns the controller state and the socket (hence the window) as they were;
a call in slow start whose slow-start remainder is 0 returns the controller
state as it was, with no epoch opened and `cnt` not recomputed. -/
theorem C12_gated_call_changes_nothing (k : Kernel) (cfg : Tunables) (j : Nat) (ca : linetcp)
    (tp : tcp_sock) (acked : Nat) :
    (k.tcp_is_cwnd_limited tp = false →
      linetcp_cong_avoid k cfg j ca tp acked = some (ca, tp)) ∧
    (k.tcp_in_slow_start tp = true → (k.tcp_slow_start tp acked).2 = 0 →
      (linetcp_cong_avoid k cfg j ca tp acked).map Prod.fst = some ca) := by
  constructor
  · intro h1
    unfold linetcp_cong_avoid
    rw [if_pos h1]
  · intro h2 h3
    unfold linetcp_cong_avoid
    by_cases h1 : k.tcp_is_cwnd_limited tp = false
    · rw [if_pos h1]
      rfl
    · rw [if_neg h1, if_pos h2, if_pos h3]
      rfl

/-- Witness for C12: a socket that is not cwnd-limited, and a slow-start socket
(window 10, threshold 100) whose 3 acked segments are all used by slow start. -/
theorem C12_gated_call_changes_nothing_witness :
    linuxHost.tcp_is_cwnd_limited (sockAt 100 false) = false ∧
    linetcp_cong_avoid linuxHost defaultTunables 20000 busyCa (sockAt 100 false) 1 =
      some (busyCa, sockAt 100 false) ∧
    linuxHost.tcp_in_slow_start slowStartSock = true ∧
    (linuxHost.tcp_slow_start slowStartSock 3).2 = 0 ∧
    (linetcp_cong_avoid linuxHost defaultTunables 20000 zeroCa slowStartSock 3).map Prod.fst =
      some zeroCa :=
  ⟨by decide,
   (C12_gated_call_changes_nothing linuxHost defaultTunables 20000 busyCa (sockAt 100 false) 1).1
     (by decide),
   by decide, by decide,
   (C12_gated_call_changes_nothing linuxHost defaultTunables 20000 zeroCa slowStartSock 3).2
     (by decide) (by decide)⟩

/-- Conversion to `u64` of a natural number that fits. -/
theorem toU64_natCast (a : Nat) (h : a < 18446744073709551616) : toU64 (a : Int) = a := by
  unfold toU64
  omega

/-- Conversion to `u32` of a natural number that fits. -/
theorem toU32_natCast (a : Nat) (h : a < 4294967296) : toU32 (a : Int) = a := by
  unfold toU32
  omega

/-- Where nothing wraps, the code computes the divisor of the specification's
formula: for parameters `alpha > 0` and `gamma ≥ 0` (as C `int`s), a tick count
`t` below 2^32 and a window with `1 ≤ cwnd` and `100 * cwnd < 2^32`, the update
returns and its `cnt` is `divisor_formula`. -/
theorem linetcp_update_formula_in_range (k : Kernel) (cfg : Tunables) (j : Nat)
    (ca : linetcp) (cwnd acked a g : Nat)
    (ha : cfg.alpha = (a : Int)) (hg : cfg.gamma = (g : Int))
    (ha0 : 0 < a) (ha1 : a < 2147483648) (hg1 : g < 2147483648)
    (ht : k.msecs_to_jiffies (ca.delay_min / 8) < 4294967296)
    (hc1 : 1 ≤ cwnd) (hc2 : 100 * cwnd < 4294967296) :
    ∃ ca1, linetcp_update k cfg j ca cwnd acked = some ca1 ∧
      ca1.cnt = divisor_formula a g (epoch_open cfg j ca).K
        (k.msecs_to_jiffies (ca.delay_min / 8)) ca.last_max_cwnd cwnd := by
  have hα : ¬ (ca.epoch_start = 0 ∧ toU32 cfg.alpha = 0) := by
    rw [ha, toU32_natCast a (by omega)]
    omega
  have hoffs : update_offs k cfg (epoch_open cfg j ca) cwnd ≠ 0 :=
    update_offs_ne_zero k cfg _ cwnd hc1 (by omega)
  have hut : update_t k (epoch_open cfg j ca) = k.msecs_to_jiffies (ca.delay_min / 8) := by
    rw [update_t_epoch_open]
    unfold update_t
    exact Nat.mod_eq_of_lt (by omega)
  have hat : a * k.msecs_to_jiffies (ca.delay_min / 8) < 18446744073709551616 :=
    lt_of_lt_of_le (Nat.mul_lt_mul'' ha1 ht) (by norm_num)
  have hgt : g * k.msecs_to_jiffies (ca.delay_min / 8) < 18446744073709551616 :=
    lt_of_lt_of_le (Nat.mul_lt_mul'' hg1 ht) (by norm_num)
  have hraw : update_offs_raw k cfg (epoch_open cfg j ca) =
      if k.msecs_to_jiffies (ca.delay_min / 8) < (epoch_open cfg j ca).K
      then a * k.msecs_to_jiffies (ca.delay_min / 8)
      else g * k.msecs_to_jiffies (ca.delay_min / 8) := by
    unfold update_offs_raw
    rw [hut, ha, hg, toU64_natCast a (by omega), toU64_natCast g (by omega),
      Nat.mod_eq_of_lt hat, Nat.mod_eq_of_lt hgt]
  have hoffs_eq : update_offs k cfg (epoch_open cfg j ca) cwnd =
      if (if k.msecs_to_jiffies (ca.delay_min / 8) < (epoch_open cfg j ca).K
          then a * k.msecs_to_jiffies (ca.delay_min / 8)
          else g * k.msecs_to_jiffies (ca.delay_min / 8)) ≠ 0
      then (if k.msecs_to_jiffies (ca.delay_min / 8) < (epoch_open cfg j ca).K
          then a * k.msecs_to_jiffies (ca.delay_min / 8)
          else g * k.msecs_to_jiffies (ca.delay_min / 8))
      else 100 * cwnd := by
    unfold update_offs
    rw [hraw, Nat.mod_eq_of_lt hc2]
  refine ⟨_, linetcp_update_eq k cfg j ca cwnd acked hα hoffs, ?_⟩
  have hq : cwnd / update_offs k cfg (epoch_open cfg j ca) cwnd % 4294967296 =
      cwnd / update_offs k cfg (epoch_open cfg j ca) cwnd :=
    Nat.mod_eq_of_lt (lt_of_le_of_lt (Nat.div_le_self _ _) (by omega))
  have hl := (epoch_open_frame cfg j ca).2.1
  simp only [hq, hl]
  rw [hoffs_eq]
  unfold divisor_formula
  exact max_comm _ _

/-- C13 at the failing input: default parameters, no delay sample yet
(`t = 0`), a window of 42949673 segments.  The 32-bit fallback product
`100 * cwnd` wraps from 4294967300 to 4, so the code sets `cnt` to 20 on a
fresh state (and to 10737418 on a state with `last_max_cwnd = 400`), where the
formula gives 2. -/
theorem C13_fallback_product_wraps :
    (linetcp_update linuxHost defaultTunables 5000 zeroCa 42949673 1).map
      (fun c => c.cnt) = some 20 ∧
    divisor_formula 2 2 (epoch_open defaultTunables 5000 zeroCa).K
      (linuxHost.msecs_to_jiffies (zeroCa.delay_min / 8)) zeroCa.last_max_cwnd 42949673 = 2 ∧
    update_offs linuxHost defaultTunables (epoch_open defaultTunables 5000 zeroCa) 42949673 = 4 ∧
    100 * 42949673 = 4294967300 ∧
    (linetcp_update linuxHost defaultTunables 5000 (caWithDelay 0) 42949673 1).map
      (fun c => c.cnt) = some 10737418 ∧
    divisor_formula 2 2 (epoch_open defaultTunables 5000 (caWithDelay 0)).K
      (linuxHost.msecs_to_jiffies ((caWithDelay 0).delay_min / 8))
      (caWithDelay 0).last_max_cwnd 42949673 = 2 := by
  decide

/-- C14: when the update step runs with `epoch_start = 0` it sets `epoch_start`
to the clock value and `K` to `last_max_cwnd / alpha` (the unsigned division of
the code, which for a positive `alpha` is the natural-number quotient); with
`epoch_start ≠ 0` both fields keep their values; `last_max_cwnd` and
`delay_min` are unchanged in both cases.  The step returns whenever neither of
its divisors is zero. -/
theorem C14_epoch_opening (k : Kernel) (cfg : Tunables) (j : Nat) (ca : linetcp)
    (cwnd acked : Nat)
    (hα : ¬ (ca.epoch_start = 0 ∧ toU32 cfg.alpha = 0))
    (hoffs : update_offs k cfg (epoch_open cfg j ca) cwnd ≠ 0) :
    ∃ ca1, linetcp_update k cfg j ca cwnd acked = some ca1 ∧
      (ca.epoch_start = 0 →
        ca1.epoch_start = j ∧ ca1.K = ca.last_max_cwnd / toU32 cfg.alpha ∧
        (0 < cfg.alpha → cfg.alpha < 2147483648 →
          ca1.K = ca.last_max_cwnd / cfg.alpha.toNat)) ∧
      (ca.epoch_start ≠ 0 → ca1.epoch_start = ca.epoch_start ∧ ca1.K = ca.K) ∧
      ca1.last_max_cwnd = ca.last_max_cwnd ∧ ca1.delay_min = ca.delay_min := by
  have hu := linetcp_update_eq k cfg j ca cwnd acked hα hoffs
  refine ⟨_, hu, ?_, ?_, ?_⟩
  · intro h0
    have he : epoch_open cfg j ca =
        { ca with epoch_start := j, K := ca.last_max_cwnd / toU32 cfg.alpha } := by
      unfold epoch_open
      rw [if_pos h0]
    refine ⟨by simp only [he], by simp only [he], fun hp hlt => ?_⟩
    have hcast : toU32 cfg.alpha = cfg.alpha.toNat := by
      unfold toU32
      omega
    simp only [he, hcast]
  · intro hne
    have he : epoch_open cfg j ca = ca := by
      unfold epoch_open
      rw [if_neg hne]
    simp only [he]
    exact ⟨trivial, trivial⟩
  · exact ⟨(epoch_open_frame cfg j ca).2.1, (epoch_open_frame cfg j ca).2.2⟩

/-- Witness for C14: with the default `alpha = 2`, a state with no open epoch
and `last_max_cwnd = 400` gets `epoch_start = 5000` and `K = 200`. -/
theorem C14_epoch_opening_witness :
    ¬ (closedEpochCa.epoch_start = 0 ∧ toU32 defaultTunables.alpha = 0) ∧
    update_offs linuxHost defaultTunables (epoch_open defaultTunables 5000 closedEpochCa) 100 ≠ 0 ∧
    linetcp_update linuxHost defaultTunables 5000 closedEpochCa 100 1 =
      some { cnt := 2, last_max_cwnd := 400, K := 200, delay_min := 160, epoch_start := 5000 } ∧
    ∃ ca1, linetcp_update linuxHost defaultTunables 5000 closedEpochCa 100 1 = some ca1 ∧
      (closedEpochCa.epoch_start = 0 →
        ca1.epoch_start = 5000 ∧
        ca1.K = closedEpochCa.last_max_cwnd / toU32 defaultTunables.alpha ∧
        (0 < defaultTunables.alpha → defaultTunables.alpha < 2147483648 →
          ca1.K = closedEpochCa.last_max_cwnd / defaultTunables.alpha.toNat)) ∧
      (closedEpochCa.epoch_start ≠ 0 →
        ca1.epoch_start = closedEpochCa.epoch_start ∧ ca1.K = closedEpochCa.K) ∧
      ca1.last_max_cwnd = closedEpochCa.last_max_cwnd ∧
      ca1.delay_min = closedEpochCa.delay_min :=
  ⟨by decide, by decide, by decide,
   C14_epoch_opening linuxHost defaultTunables 5000 closedEpochCa 100 1
     (by decide) (by decide)⟩

/-- A delay estimate below 8 (less than one millisecond, or unset) gives
`t = 0` on a host whose `msecs_to_jiffies` maps 0 to 0. -/
theorem update_t_zero_of_small_delay (k : Kernel) (ca : linetcp)
    (hk : k.msecs_to_jiffies 0 = 0) (hd : ca.delay_min < 8) : update_t k ca = 0 := by
  unfold update_t
  have h0 : ca.delay_min / 8 = 0 := by omega
  rw [h0, hk]

/-- C15: when `t = 0` (which is the case for `delay_min < 8` on a host whose
`msecs_to_jiffies` maps 0 to 0) and `1 ≤ cwnd`, `100 * cwnd < 2^32`, the update
step uses `offs = 100 * cwnd`, the quotient `cwnd / offs` is 0, and the step
returns with `cnt = 2`, whatever `last_max_cwnd` is. -/
theorem C15_zero_delay_fallback (k : Kernel) (cfg : Tunables) (j : Nat) (ca : linetcp)
    (cwnd acked : Nat)
    (ht : update_t k ca = 0) (hc1 : 1 ≤ cwnd) (hc2 : 100 * cwnd < 4294967296)
    (hα : ¬ (ca.epoch_start = 0 ∧ toU32 cfg.alpha = 0)) :
    (k.msecs_to_jiffies 0 = 0 → ∀ ca0 : linetcp, ca0.delay_min < 8 → update_t k ca0 = 0) ∧
    update_offs k cfg (epoch_open cfg j ca) cwnd = 100 * cwnd ∧
    cwnd / update_offs k cfg (epoch_open cfg j ca) cwnd = 0 ∧
    ∃ ca1, linetcp_update k cfg j ca cwnd acked = some ca1 ∧ ca1.cnt = 2 := by
  have hraw : update_offs_raw k cfg (epoch_open cfg j ca) = 0 := by
    unfold update_offs_raw
    rw [update_t_epoch_open, ht]
    simp
  have hoffs_eq : update_offs k cfg (epoch_open cfg j ca) cwnd = 100 * cwnd := by
    unfold update_offs
    rw [hraw]
    simp only [ne_eq, not_true_eq_false, if_false]
    exact Nat.mod_eq_of_lt hc2
  have hq : cwnd / (100 * cwnd) = 0 := Nat.div_eq_of_lt (by omega)
  have hoffs : update_offs k cfg (epoch_open cfg j ca) cwnd ≠ 0 := by
    rw [hoffs_eq]
    omega
  refine ⟨fun hk ca0 hd => update_t_zero_of_small_delay k ca0 hk hd, hoffs_eq, ?_, ?_⟩
  · rw [hoffs_eq]
    exact hq
  · refine ⟨_, linetcp_update_eq k cfg j ca cwnd acked hα hoffs, ?_⟩
    simp only [hoffs_eq, hq]
    simp

/-- Witness for C15: a fresh state and a window of 100 segments give the offset
10000, the quotient 0 and the divisor 2. -/
theorem C15_zero_delay_fallback_witness :
    update_t linuxHost zeroCa = 0 ∧ (1 : Nat) ≤ 100 ∧ 100 * 100 < 4294967296 ∧
    ¬ (zeroCa.epoch_start = 0 ∧ toU32 defaultTunables.alpha = 0) ∧
    update_offs linuxHost defaultTunables (epoch_open defaultTunables 5000 zeroCa) 100 = 10000 ∧
    (100 : Nat) / 10000 = 0 ∧
    ((linuxHost.msecs_to_jiffies 0 = 0 →
        ∀ ca0 : linetcp, ca0.delay_min < 8 → update_t linuxHost ca0 = 0) ∧
     update_offs linuxHost defaultTunables (epoch_open defaultTunables 5000 zeroCa) 100 =
       100 * 100 ∧
     100 / update_offs linuxHost defaultTunables (epoch_open defaultTunables 5000 zeroCa) 100 = 0 ∧
     ∃ ca1, linetcp_update linuxHost defaultTunables 5000 zeroCa 100 1 = some ca1 ∧
       ca1.cnt = 2) :=
  ⟨by decide, by decide, by decide, by decide, by decide, by decide,
   C15_zero_delay_fallback linuxHost defaultTunables 5000 zeroCa 100 1
     (by decide) (by decide) (by decide) (by decide)⟩

/-- The clamped divisor does not grow when the quotient shrinks. -/
theorem clamp_mono (b : Prop) [Decidable b] (q1 q2 : Nat) (h : q2 ≤ q1) :
    max (if b ∧ q2 > 20 then 20 else q2) 2 ≤ max (if b ∧ q1 > 20 then 20 else q1) 2 := by
  apply max_le_max _ (le_refl 2)
  by_cases hb : b
  · simp only [hb, true_and]
    split_ifs <;> omega
  · simp only [hb, false_and, if_false]
    exact h

/-- C16, as stated, fails: with the same window (100) and the same
`last_max_cwnd` (400), the offset 10 gives `cnt = 10` and the larger offset 20
gives `cnt = 5`, so the divisor from the smaller offset is not the smaller one. -/
theorem C16_smaller_offset_larger_cnt :
    update_offs linuxHost defaultTunables
      (epoch_open defaultTunables 20000 (caWithDelay 40)) 100 = 10 ∧
    update_offs linuxHost defaultTunables
      (epoch_open defaultTunables 20000 (caWithDelay 80)) 100 = 20 ∧
    (caWithDelay 40).last_max_cwnd = (caWithDelay 80).last_max_cwnd ∧
    (linetcp_update linuxHost defaultTunables 20000 (caWithDelay 40) 100 1).map
      (fun c => c.cnt) = some 10 ∧
    (linetcp_update linuxHost defaultTunables 20000 (caWithDelay 80) 100 1).map
      (fun c => c.cnt) = some 5 ∧
    ¬ ((10 : Nat) ≤ 5) := by
  decide

/-- C16 (amended): for the same 32-bit window and the same `last_max_cwnd`, two
runs of the update step whose offsets satisfy `0 < o1 ≤ o2` both return, and the
`cnt` computed from the smaller offset `o1` is at least the one computed from
`o2`: a smaller offset needs more acked segments per one-segment increase. -/
theorem C16_cnt_antitone_in_offset (k1 k2 : Kernel) (cfg1 cfg2 : Tunables) (j1 j2 : Nat)
    (ca1 ca2 : linetcp) (cwnd acked1 acked2 : Nat)
    (hcwnd : cwnd < 4294967296)
    (hl : ca1.last_max_cwnd = ca2.last_max_cwnd)
    (hα1 : ¬ (ca1.epoch_start = 0 ∧ toU32 cfg1.alpha = 0))
    (hα2 : ¬ (ca2.epoch_start = 0 ∧ toU32 cfg2.alpha = 0))
    (ho1 : 0 < update_offs k1 cfg1 (epoch_open cfg1 j1 ca1) cwnd)
    (ho : update_offs k1 cfg1 (epoch_open cfg1 j1 ca1) cwnd ≤
          update_offs k2 cfg2 (epoch_open cfg2 j2 ca2) cwnd) :
    ∃ r1 r2, linetcp_update k1 cfg1 j1 ca1 cwnd acked1 = some r1 ∧
      linetcp_update k2 cfg2 j2 ca2 cwnd acked2 = some r2 ∧ r2.cnt ≤ r1.cnt := by
  have ho2 : update_offs k2 cfg2 (epoch_open cfg2 j2 ca2) cwnd ≠ 0 := by omega
  refine ⟨_, _, linetcp_update_eq k1 cfg1 j1 ca1 cwnd acked1 hα1 (by omega),
    linetcp_update_eq k2 cfg2 j2 ca2 cwnd acked2 hα2 ho2, ?_⟩
  have hq1 : cwnd / update_offs k1 cfg1 (epoch_open cfg1 j1 ca1) cwnd % 4294967296 =
      cwnd / update_offs k1 cfg1 (epoch_open cfg1 j1 ca1) cwnd :=
    Nat.mod_eq_of_lt (lt_of_le_of_lt (Nat.div_le_self _ _) hcwnd)
  have hq2 : cwnd / update_offs k2 cfg2 (epoch_open cfg2 j2 ca2) cwnd % 4294967296 =
      cwnd / update_offs k2 cfg2 (epoch_open cfg2 j2 ca2) cwnd :=
    Nat.mod_eq_of_lt (lt_of_le_of_lt (Nat.div_le_self _ _) hcwnd)
  have hl1 := (epoch_open_frame cfg1 j1 ca1).2.1
  have hl2 := (epoch_open_frame cfg2 j2 ca2).2.1
  simp only [hq1, hq2, hl1, hl2, ← hl]
  exact clamp_mono (ca1.last_max_cwnd = 0) _ _ (Nat.div_le_div_left ho ho1)

/-- Witness for C16: window 100, `last_max_cwnd = 400`, offsets 10 and 20 give
the divisors 10 and 5. -/
theorem C16_cnt_antitone_in_offset_witness :
    (100 : Nat) < 4294967296 ∧
    (caWithDelay 40).last_max_cwnd = (caWithDelay 80).last_max_cwnd ∧
    0 < update_offs linuxHost defaultTunables
      (epoch_open defaultTunables 20000 (caWithDelay 40)) 100 ∧
    update_offs linuxHost defaultTunables
        (epoch_open defaultTunables 20000 (caWithDelay 40)) 100 ≤
      update_offs linuxHost defaultTunables
        (epoch_open defaultTunables 20001 (caWithDelay 80)) 100 ∧
    ∃ r1 r2, linetcp_update linuxHost defaultTunables 20000 (caWithDelay 40) 100 1 = some r1 ∧
      linetcp_update linuxHost defaultTunables 20001 (caWithDelay 80) 100 1 = some r2 ∧
      r2.cnt ≤ r1.cnt :=
  ⟨by decide, by decide, by decide, by decide,
   C16_cnt_antitone_in_offset linuxHost linuxHost defaultTunables defaultTunables 20000 20001
     (caWithDelay 40) (caWithDelay 80) 100 1 1
     (by decide) (by decide) (by decide) (by decide) (by decide) (by decide)⟩

/-- After a completed update step `epoch_start` is non-zero as soon as an epoch
was already open or the clock value is non-zero. -/
theorem linetcp_update_epoch_start_ne_zero (k : Kernel) (cfg : Tunables) (j : Nat)
    (ca ca1 : linetcp) (cwnd acked : Nat)
    (h : linetcp_update k cfg j ca cwnd acked = some ca1)
    (hj : ca.epoch_start ≠ 0 ∨ j ≠ 0) : ca1.epoch_start ≠ 0 := by
  rw [(linetcp_update_fields k cfg j ca ca1 cwnd acked h).2.1]
  unfold epoch_open
  by_cases h0 : ca.epoch_start = 0
  · rw [if_pos h0]
    rcases hj with hne | hj0
    · exact absurd h0 hne
    · exact hj0
  · rw [if_neg h0]
    exact h0

/-- After `linetcp_init`, after `linetcp_state` with the loss state and after
`linetcp_recalc_ssthresh`, `epoch_start` is 0. -/
theorem epoch_start_zero_when_closed (k : Kernel) (cfg : Tunables) (ca : linetcp)
    (tp : tcp_sock) :
    (linetcp_init cfg ca tp).1.epoch_start = 0 ∧
    (linetcp_state k ca k.TCP_CA_Loss).epoch_start = 0 ∧
    (linetcp_recalc_ssthresh cfg ca tp).1.epoch_start = 0 := by
  refine ⟨rfl, ?_, rfl⟩
  simp [linetcp_state, linetcp_reset]

/-- C17 at the failing input: the clock `tcp_jiffies32` reads 0, the state is
fresh, the socket is cwnd-limited and past slow start with a window of 100.
The call reaches the update step and completes (`cnt` becomes 2), yet
`epoch_start` is still 0 afterwards: the clock value stored as the start of the
epoch coincides with the value that means "no epoch". -/
theorem C17_epoch_start_zero_at_clock_zero :
    cong_avoid_gate linuxHost (sockAt 100 true) 1 = some (sockAt 100 true, 1) ∧
    (linetcp_cong_avoid linuxHost defaultTunables 0 zeroCa (sockAt 100 true) 1).map
      (fun r => r.1.epoch_start) = some 0 ∧
    (linetcp_cong_avoid linuxHost defaultTunables 0 zeroCa (sockAt 100 true) 1).map
      (fun r => r.1.cnt) = some 2 ∧
    (linetcp_cong_avoid linuxHost defaultTunables 1 zeroCa (sockAt 100 true) 1).map
      (fun r => r.1.epoch_start) = some 1 := by
  decide

/-- C18 at the failing input: default parameters, a fresh state (so `t = 0`)
and a window of 1073741824 = 2^30 segments.  The fallback product
`100 * cwnd` is 0 modulo 2^32, so the divisor `offs` of `cwnd / offs` is 0 and
the update has no result. -/
theorem C18_offs_zero_at_two_pow_30 :
    (1 : Nat) ≤ 1073741824 ∧ 1073741824 < 4294967296 ∧
    (100 * 1073741824) % 4294967296 = 0 ∧
    update_offs linuxHost defaultTunables
      (epoch_open defaultTunables 5000 zeroCa) 1073741824 = 0 ∧
    linetcp_update linuxHost defaultTunables 5000 zeroCa 1073741824 1 = none ∧
    linetcp_cong_avoid linuxHost defaultTunables 5000 zeroCa (sockAt 1073741824 true) 1 = none := by
  decide

/-- C19: with `beta = 717` and the product `snd_cwnd * beta` taken modulo 2^32,
the threshold returned by `linetcp_recalc_ssthresh` is at most
`max snd_cwnd 2`, for every window. -/
theorem C19_threshold_le_window (cfg : Tunables) (ca : linetcp) (tp : tcp_sock)
    (hb : cfg.beta = 717) :
    (linetcp_recalc_ssthresh cfg ca tp).2 ≤ max tp.snd_cwnd 2 := by
  have h717 : toU32 cfg.beta = 717 := by
    rw [hb]
    decide
  unfold linetcp_recalc_ssthresh BICTCP_BETA_SCALE
  simp only [h717]
  apply max_le_max _ (le_refl 2)
  by_cases hw : tp.snd_cwnd * 717 < 4294967296
  · rw [Nat.mod_eq_of_lt hw]
    omega
  · have hm : tp.snd_cwnd * 717 % 4294967296 < 4294967296 := Nat.mod_lt _ (by decide)
    have hq : tp.snd_cwnd * 717 % 4294967296 / 1024 < 4194304 := by omega
    omega

/-- Witness for C19: the default parameters, at a window of 1000 (threshold 700)
and at the wrapping window 5990193 (threshold 2). -/
theorem C19_threshold_le_window_witness :
    defaultTunables.beta = 717 ∧
    (linetcp_recalc_ssthresh defaultTunables zeroCa (sockAt 1000 true)).2 = 700 ∧
    (linetcp_recalc_ssthresh defaultTunables zeroCa (sockAt 1000 true)).2 ≤
      max (sockAt 1000 true).snd_cwnd 2 ∧
    (linetcp_recalc_ssthresh defaultTunables zeroCa (sockAt 5990193 true)).2 ≤
      max (sockAt 5990193 true).snd_cwnd 2 :=
  ⟨by decide, by decide,
   C19_threshold_le_window defaultTunables zeroCa (sockAt 1000 true) (by decide),
   C19_threshold_le_window defaultTunables zeroCa (sockAt 5990193 true) (by decide)⟩

/-- With `alpha = gamma = 2` the offset of the update is the one computed
without the crossover test, whatever `K`, `epoch_start`, `last_max_cwnd` and
`cnt` are. -/
theorem update_offs_without_crossover (k : Kernel) (cfg : Tunables) (ca : linetcp)
    (cwnd : Nat) (ha : cfg.alpha = 2) (hg : cfg.gamma = 2) :
    update_offs k cfg ca cwnd = offs_without_crossover k ca.delay_min cwnd := by
  have h2 : toU64 2 = 2 := by decide
  have hraw : update_offs_raw k cfg ca =
      (2 * (k.msecs_to_jiffies (ca.delay_min / 8) % 18446744073709551616))
        % 18446744073709551616 := by
    unfold update_offs_raw update_t
    rw [ha, hg, h2]
    split <;> rfl
  unfold update_offs offs_without_crossover
  rw [hraw]

/-- C20: with `alpha = gamma = 2` the update step computes the offset and the
divisor of the crossover-free description: `offs` is `2 * t` (then the zero
fallback) whether or not `t < K`, and the new `cnt` is a function of
`delay_min`, `cwnd` and of whether `last_max_cwnd` is zero; so two states that
agree on `delay_min` and on `last_max_cwnd` being zero get the same `cnt`,
whatever their `K`, `epoch_start` and clock.  The step returns whenever the
offset is non-zero. -/
theorem C20_crossover_inert (k : Kernel) (cfg : Tunables) (j j' : Nat) (ca ca' : linetcp)
    (cwnd acked acked' : Nat) (ha : cfg.alpha = 2) (hg : cfg.gamma = 2)
    (hoffs : offs_without_crossover k ca.delay_min cwnd ≠ 0)
    (hd : ca'.delay_min = ca.delay_min)
    (hl : ca'.last_max_cwnd = 0 ↔ ca.last_max_cwnd = 0) :
    update_offs k cfg (epoch_open cfg j ca) cwnd = offs_without_crossover k ca.delay_min cwnd ∧
    (2 * k.msecs_to_jiffies (ca.delay_min / 8) < 18446744073709551616 →
      k.msecs_to_jiffies (ca.delay_min / 8) ≠ 0 →
      offs_without_crossover k ca.delay_min cwnd = 2 * k.msecs_to_jiffies (ca.delay_min / 8)) ∧
    ∃ ca1 ca1', linetcp_update k cfg j ca cwnd acked = some ca1 ∧
      linetcp_update k cfg j' ca' cwnd acked' = some ca1' ∧
      ca1.cnt = cnt_without_crossover k ca.delay_min (decide (ca.last_max_cwnd = 0)) cwnd ∧
      ca1'.cnt = ca1.cnt := by
  have hα : toU32 cfg.alpha ≠ 0 := by
    rw [ha]
    decide
  have key : ∀ (i : Nat) (c : linetcp), c.delay_min = ca.delay_min →
      (c.last_max_cwnd = 0 ↔ ca.last_max_cwnd = 0) →
      ∃ c1, linetcp_update k cfg i c cwnd acked = some c1 ∧
        c1.cnt = cnt_without_crossover k ca.delay_min (decide (ca.last_max_cwnd = 0)) cwnd := by
    intro i c hcd hcl
    have ho : update_offs k cfg (epoch_open cfg i c) cwnd =
        offs_without_crossover k ca.delay_min cwnd := by
      rw [update_offs_without_crossover k cfg _ cwnd ha hg, (epoch_open_frame cfg i c).2.2, hcd]
    refine ⟨_, linetcp_update_eq k cfg i c cwnd acked (fun h => hα h.2) (by rw [ho]; exact hoffs),
      ?_⟩
    have hlm := (epoch_open_frame cfg i c).2.1
    simp only [ho, hlm]
    unfold cnt_without_crossover
    simp only [decide_eq_true_eq, hcl]
  refine ⟨?_, ?_, ?_⟩
  · rw [update_offs_without_crossover k cfg _ cwnd ha hg, (epoch_open_frame cfg j ca).2.2]
  · intro hlt hne
    unfold offs_without_crossover
    have hm : k.msecs_to_jiffies (ca.delay_min / 8) % 18446744073709551616 =
        k.msecs_to_jiffies (ca.delay_min / 8) := Nat.mod_eq_of_lt (by omega)
    rw [hm, Nat.mod_eq_of_lt hlt, if_pos (by omega)]
  · obtain ⟨c1, h1, hc1⟩ := key j ca rfl Iff.rfl
    obtain ⟨c1', h1', hc1'⟩ := key j' ca' hd hl
    have h1'' : linetcp_update k cfg j' ca' cwnd acked' = some c1' := by
      rw [← h1']
      rfl
    exact ⟨c1, c1', h1, h1'', hc1, by rw [hc1, hc1']⟩

/-- Witness for C20: window 100 and `delay_min = 40` (so `t = 5`); one state
has `t < K = 200`, the other opens its epoch with `K = 1 ≤ t`; both get the
offset 10 and the divisor 10. -/
theorem C20_crossover_inert_witness :
    defaultTunables.alpha = 2 ∧ defaultTunables.gamma = 2 ∧
    offs_without_crossover linuxHost (caWithDelay 40).delay_min 100 = 10 ∧
    pastCrossoverCa.delay_min = (caWithDelay 40).delay_min ∧
    update_t linuxHost (caWithDelay 40) < (epoch_open defaultTunables 20000 (caWithDelay 40)).K ∧
    ¬ (update_t linuxHost pastCrossoverCa < (epoch_open defaultTunables 30000 pastCrossoverCa).K) ∧
    linetcp_update linuxHost defaultTunables 30000 pastCrossoverCa 100 1 =
      some { cnt := 10, last_max_cwnd := 3, K := 1, delay_min := 40, epoch_start := 30000 } ∧
    (update_offs linuxHost defaultTunables (epoch_open defaultTunables 20000 (caWithDelay 40)) 100 =
        offs_without_crossover linuxHost (caWithDelay 40).delay_min 100 ∧
     (2 * linuxHost.msecs_to_jiffies ((caWithDelay 40).delay_min / 8) < 18446744073709551616 →
       linuxHost.msecs_to_jiffies ((caWithDelay 40).delay_min / 8) ≠ 0 →
       offs_without_crossover linuxHost (caWithDelay 40).delay_min 100 =
         2 * linuxHost.msecs_to_jiffies ((caWithDelay 40).delay_min / 8)) ∧
     ∃ ca1 ca1', linetcp_update linuxHost defaultTunables 20000 (caWithDelay 40) 100 1 = some ca1 ∧
       linetcp_update linuxHost defaultTunables 30000 pastCrossoverCa 100 1 = some ca1' ∧
       ca1.cnt = cnt_without_crossover linuxHost (caWithDelay 40).delay_min
         (decide ((caWithDelay 40).last_max_cwnd = 0)) 100 ∧
       ca1'.cnt = ca1.cnt) :=
  ⟨by decide, by decide, by decide, by decide, by decide, by decide, by decide,
   C20_crossover_inert linuxHost defaultTunables 20000 30000 (caWithDelay 40) pastCrossoverCa
     100 1 1 (by decide) (by decide) (by decide) (by decide) (by decide)⟩

end TcpLine
